import Mathlib

/-
Verification of the smart-account orchestration endpoint
(`src/app/api/smartaccount/route.ts`) and the swap client's allowance
polling (`src/app/swap/page.tsx`).

The endpoint handlers are sequential async code whose only effects are
calls to external services (env-var reads, request-body parsing, account
construction, user-operation submission, receipt waiting, a fixed delay,
and an on-chain allowance read).  We embed each handler as a pure
function over an environment recording the result of each external call
(`Except String α`: a rejected promise carries its error message), and
have the handler return both the HTTP response it produces and the trace
of external effects it performed, in order.
-/

namespace SmartAccount

/-- A call in the POST request body: `{to, data}`, possibly with a
caller-supplied `value` field (which the route never reads). -/
structure Call where
  toAddr : String
  data : String
  value : Option Nat := none
deriving Repr, DecidableEq

/-- A call as actually handed to `sendUserOperation` / `encodeCalls`:
the route always fills `value: BigInt(0)`. -/
structure SubCall where
  toAddr : String
  value : Nat
  data : String
deriving Repr, DecidableEq

/-- The body of a `NextResponse.json(...)` produced by the route. -/
inductive Body where
  | address (a : String)
  | userOpHash (h : String)
  | error (msg : String)
deriving Repr, DecidableEq

/-- An HTTP response: JSON body plus status (200 when none is given). -/
structure Response where
  body : Body
  status : Nat
deriving Repr, DecidableEq

def jsonOk (b : Body) : Response := ⟨b, 200⟩

def jsonErr (msg : String) (status : Nat) : Response := ⟨.error msg, status⟩

/-- External effects the endpoint performs, recorded at invocation. -/
inductive Event where
  | accountSetup
  | submit (calls : List SubCall)
  | waitReceipt (hash : String)
  | delay (ms : Nat)
  | readAllowance (token owner spender : String)
deriving Repr, DecidableEq

/-- JS truthiness test for `!process.env.X`: missing or empty string. -/
def missingEnvVar : Option String → Bool
  | none => true
  | some s => s == ""

/-- Environment for a GET request: the two env vars and the combined
result of public-client / validator / kernel-account construction
(`Except.ok` yields `account.address`). -/
structure GetEnv where
  privateKey : Option String
  zerodevRPC : Option String
  setup : Except String String

/-- The GET handler: returns the smart account's address, or an error. -/
def GET (env : GetEnv) : Response × List Event :=
  if missingEnvVar env.privateKey || missingEnvVar env.zerodevRPC then
    (jsonErr "Missing env vars" 500, [])
  else
    match env.setup with
    | .error e => (jsonErr e 500, [.accountSetup])
    | .ok addr => (jsonOk (.address addr), [.accountSetup])

/-- Environment for a POST request: env vars, the parsed request body,
and the result of each external call the handler may make. -/
structure PostEnv where
  privateKey : Option String
  zerodevRPC : Option String
  parsedBody : Except String (List Call)
  setup : Except String Unit
  accountAddress : String
  encodeApprove : Except String String
  sendApprove : Except String String
  waitApprove : Except String Unit
  allowanceResult : Except String Nat
  encodeSwap : Except String String
  sendSwap : Except String String
  sendSingle : Except String String

/-- The route submits every call with `value: BigInt(0)`. -/
def mkSub (c : Call) : SubCall := ⟨c.toAddr, 0, c.data⟩

/-- The two-call (approve + swap) branch of the POST handler.  The first
try-block covers encode, send, receipt wait, the 30000 ms settle delay
and the allowance read; its catch returns a 500 whose message is
"Approve failed: " plus the error.  A zero allowance returns a 400.
The second try-block covers the swap encode and send. -/
def postTwoCalls (env : PostEnv) (c0 c1 : Call) : Response × List Event :=
  match env.encodeApprove with
  | .error e => (jsonErr ("Approve failed: " ++ e) 500, [.accountSetup])
  | .ok _ =>
    match env.sendApprove with
    | .error e =>
        (jsonErr ("Approve failed: " ++ e) 500,
         [.accountSetup, .submit [mkSub c0]])
    | .ok approveHash =>
      match env.waitApprove with
      | .error e =>
          (jsonErr ("Approve failed: " ++ e) 500,
           [.accountSetup, .submit [mkSub c0], .waitReceipt approveHash])
      | .ok _ =>
        match env.allowanceResult with
        | .error e =>
            (jsonErr ("Approve failed: " ++ e) 500,
             [.accountSetup, .submit [mkSub c0], .waitReceipt approveHash,
              .delay 30000, .readAllowance c0.toAddr env.accountAddress c1.toAddr])
        | .ok allowance =>
          if allowance = 0 then
            (jsonErr "Allowance not updated" 400,
             [.accountSetup, .submit [mkSub c0], .waitReceipt approveHash,
              .delay 30000, .readAllowance c0.toAddr env.accountAddress c1.toAddr])
          else
            match env.encodeSwap with
            | .error e =>
                (jsonErr ("Swap failed: " ++ e) 500,
                 [.accountSetup, .submit [mkSub c0], .waitReceipt approveHash,
                  .delay 30000, .readAllowance c0.toAddr env.accountAddress c1.toAddr])
            | .ok _ =>
              match env.sendSwap with
              | .error e =>
                  (jsonErr ("Swap failed: " ++ e) 500,
                   [.accountSetup, .submit [mkSub c0], .waitReceipt approveHash,
                    .delay 30000, .readAllowance c0.toAddr env.accountAddress c1.toAddr,
                    .submit [mkSub c1]])
              | .ok swapHash =>
                  (jsonOk (.userOpHash swapHash),
                   [.accountSetup, .submit [mkSub c0], .waitReceipt approveHash,
                    .delay 30000, .readAllowance c0.toAddr env.accountAddress c1.toAddr,
                    .submit [mkSub c1]])

/-- The other branch of the POST handler: all calls submitted together
as one user-operation; its catch returns the raw message with 500. -/
def postSingle (env : PostEnv) (calls : List Call) : Response × List Event :=
  match env.sendSingle with
  | .error e => (jsonErr e 500, [.accountSetup, .submit (calls.map mkSub)])
  | .ok h => (jsonOk (.userOpHash h), [.accountSetup, .submit (calls.map mkSub)])

/-- The POST handler.  Missing env vars short-circuit to a 500 before
any work; body-parse failure and account-setup failure are caught by the
outer catch; a body of exactly two calls goes to the sequential
approve-then-swap branch, anything else to the combined branch. -/
def POST (env : PostEnv) : Response × List Event :=
  if missingEnvVar env.privateKey || missingEnvVar env.zerodevRPC then
    (jsonErr "Missing env vars" 500, [])
  else
    match env.parsedBody with
    | .error e => (jsonErr e 500, [])
    | .ok calls =>
      match env.setup with
      | .error e => (jsonErr e 500, [.accountSetup])
      | .ok _ =>
        match calls with
        | [c0, c1] => postTwoCalls env c0 c1
        | _ => postSingle env calls

/-- The payloads of the `sendUserOperation` invocations in a trace. -/
def submitsOf : List Event → List (List SubCall)
  | [] => []
  | .submit scs :: rest => scs :: submitsOf rest
  | _ :: rest => submitsOf rest

/-- The hashes whose receipts the handler waited for, in order. -/
def waitsOf : List Event → List String
  | [] => []
  | .waitReceipt h :: rest => h :: waitsOf rest
  | _ :: rest => waitsOf rest

/-- The (token, owner, spender) arguments of allowance reads. -/
def allowanceReadsOf : List Event → List (String × String × String)
  | [] => []
  | .readAllowance t o s :: rest => (t, o, s) :: allowanceReadsOf rest
  | _ :: rest => allowanceReadsOf rest

/-- Every call in every submission of the trace carries value 0. -/
def submitValuesZero (tr : List Event) : Bool :=
  (submitsOf tr).all fun scs => scs.all fun sc => sc.value == 0

/-
Client side (`src/app/swap/page.tsx`): the allowance polling loop and
the `handleSwap` sequence.  Chain reads are modelled by a function
giving the allowance observed at each attempt; the two fetches to the
endpoint by `Except String Response` (a network failure rejects).
-/

/-- The MockSwap contract address hard-coded in the page. -/
def MOCK_SWAP_ADDRESS : String := "0x718421BB9a6Bb63D4A63295d59c12196c3e221Ed"

/-- Effects of one run of the polling loop, recorded in order. -/
inductive PollEvent where
  | read (attempt : Nat) (value : Nat)
  | sleep (ms : Nat)
deriving Repr, DecidableEq

/-- The loop body of `pollForAllowance`: at attempt `i` read the
allowance; if it is ≥ `expected`, return true at once; otherwise sleep
2000 ms and retry while fuel remains; exhausted fuel returns false. -/
def pollLoop (reads : Nat → Nat) (expected : Nat) : Nat → Nat → Bool × List PollEvent
  | _, 0 => (false, [])
  | i, fuel + 1 =>
    if expected ≤ reads i then (true, [.read i (reads i)])
    else
      ((pollLoop reads expected (i + 1) fuel).1,
       .read i (reads i) :: .sleep 2000 :: (pollLoop reads expected (i + 1) fuel).2)

/-- `pollForAllowance` from the page: up to `maxTries` (default 20)
reads of allowance(owner, spender) until one is ≥ `expectedAmount`. -/
def pollForAllowance (reads : Nat → Nat) (expectedAmount : Nat)
    (maxTries : Nat := 20) : Bool × List PollEvent :=
  pollLoop reads expectedAmount 0 maxTries

/-- Number of allowance reads a poll trace performed. -/
def pollReadCount : List PollEvent → Nat
  | [] => 0
  | .read _ _ :: rest => pollReadCount rest + 1
  | .sleep _ :: rest => pollReadCount rest

/-- Every sleep in a poll trace is exactly 2000 ms. -/
def pollSleepsAll2000 : List PollEvent → Bool
  | [] => true
  | .sleep ms :: rest => ms == 2000 && pollSleepsAll2000 rest
  | .read _ _ :: rest => pollSleepsAll2000 rest

/-- Client-side status after `handleSwap` finishes (the page's
`swapStatus` state; `none` when the early guard returned). -/
inductive SwapStatus where
  | pending
  | success
  | error
deriving Repr, DecidableEq

/-- Effects of one run of `handleSwap`, recorded in order. -/
inductive ClientEvent where
  | postApprove (calls : List Call)
  | pollRead (attempt : Nat) (value : Nat)
  | pollSleep (ms : Nat)
  | postSwap (calls : List Call)
deriving Repr, DecidableEq

def pollEventToClient : PollEvent → ClientEvent
  | .read i v => .pollRead i v
  | .sleep ms => .pollSleep ms

/-- Environment for one run of `handleSwap`. -/
structure ClientEnv where
  fromAmount : String
  accountAddress : Option String
  fromTokenAddress : String
  approveData : String
  swapData : String
  amount : Nat
  approveResult : Except String Response
  reads : Nat → Nat
  swapResult : Except String Response

/-- `fetch` Response.ok: status in the 200–299 range. -/
def respOk (r : Response) : Bool := 200 ≤ r.status && r.status < 300

/-- The approve call the page posts: to the source token, with the
encoded approve(MockSwap, amount) data. -/
def approveCallOf (env : ClientEnv) : Call :=
  ⟨env.fromTokenAddress, env.approveData, none⟩

/-- The swap call the page posts: to the MockSwap contract, with the
encoded swapAToB(amount) data. -/
def swapCallOf (env : ClientEnv) : Call :=
  ⟨MOCK_SWAP_ADDRESS, env.swapData, none⟩

/-- The client-trace image of one full polling run. -/
def clientPollTrace (env : ClientEnv) : List ClientEvent :=
  (pollForAllowance env.reads env.amount 20).2.map pollEventToClient

/-- `handleSwap` from the page: guard, POST the approve as a one-call
batch, poll the allowance up to 20 times, then POST the swap as a
one-call batch; every exception collapses to the error status. -/
def handleSwap (env : ClientEnv) : Option SwapStatus × List ClientEvent :=
  if env.fromAmount == "" || env.accountAddress.isNone then (none, [])
  else
    match env.approveResult with
    | .error _ => (some .error, [.postApprove [approveCallOf env]])
    | .ok resp =>
      if !respOk resp then (some .error, [.postApprove [approveCallOf env]])
      else if !(pollForAllowance env.reads env.amount 20).1 then
        (some .error, .postApprove [approveCallOf env] :: clientPollTrace env)
      else
        match env.swapResult with
        | .error _ =>
            (some .error, .postApprove [approveCallOf env] ::
              clientPollTrace env ++ [.postSwap [swapCallOf env]])
        | .ok resp2 =>
          if !respOk resp2 then
            (some .error, .postApprove [approveCallOf env] ::
              clientPollTrace env ++ [.postSwap [swapCallOf env]])
          else
            (some .success, .postApprove [approveCallOf env] ::
              clientPollTrace env ++ [.postSwap [swapCallOf env]])

/-- Number of swap POSTs in a client trace. -/
def postSwapCount : List ClientEvent → Nat
  | [] => 0
  | .postSwap _ :: rest => postSwapCount rest + 1
  | _ :: rest => postSwapCount rest

/-- GET outcomes allowed by the spec: 200 address or 500 error. -/
def wellFormedGet (r : Response) : Bool :=
  match r with
  | ⟨.address _, 200⟩ => true
  | ⟨.error _, 500⟩ => true
  | _ => false

/-- POST outcomes allowed by the spec: 200 userOpHash, 400 or 500 error. -/
def wellFormedPost (r : Response) : Bool :=
  match r with
  | ⟨.userOpHash _, 200⟩ => true
  | ⟨.error _, 400⟩ => true
  | ⟨.error _, 500⟩ => true
  | _ => false

/-
Helper lemmas about the polling loop and trace counters.
-/

theorem pollLoop_readCount_le (reads : Nat → Nat) (e : Nat) :
    ∀ fuel i, pollReadCount (pollLoop reads e i fuel).2 ≤ fuel := by
  intro fuel
  induction fuel with
  | zero => intro i; simp [pollLoop, pollReadCount]
  | succ n ih =>
    intro i
    by_cases hge : e ≤ reads i
    · simp [pollLoop, hge, pollReadCount]
    · simp only [pollLoop, if_neg hge, pollReadCount]
      exact Nat.succ_le_succ (ih (i + 1))

theorem pollLoop_sleeps (reads : Nat → Nat) (e : Nat) :
    ∀ fuel i, pollSleepsAll2000 (pollLoop reads e i fuel).2 = true := by
  intro fuel
  induction fuel with
  | zero => intro i; simp [pollLoop, pollSleepsAll2000]
  | succ n ih =>
    intro i
    by_cases hge : e ≤ reads i
    · simp [pollLoop, hge, pollSleepsAll2000]
    · simp only [pollLoop, if_neg hge, pollSleepsAll2000]
      simpa using ih (i + 1)

theorem pollLoop_all_below (reads : Nat → Nat) (e : Nat) :
    ∀ fuel i, (∀ j, j < fuel → reads (i + j) < e) →
      (pollLoop reads e i fuel).1 = false ∧
      pollReadCount (pollLoop reads e i fuel).2 = fuel := by
  intro fuel
  induction fuel with
  | zero => intro i _; simp [pollLoop, pollReadCount]
  | succ n ih =>
    intro i hall
    have h0 : reads i < e := by simpa using hall 0 (Nat.succ_pos n)
    have hnot : ¬ e ≤ reads i := Nat.not_le.mpr h0
    have hrec := ih (i + 1) (fun j hj => by
      have h2 := hall (j + 1) (Nat.succ_lt_succ hj)
      have heq : i + (j + 1) = i + 1 + j := by omega
      rwa [heq] at h2)
    simp only [pollLoop, if_neg hnot, pollReadCount]
    exact ⟨hrec.1, by rw [hrec.2]⟩

theorem pollLoop_first_success (reads : Nat → Nat) (e : Nat) :
    ∀ fuel i k, k < fuel → e ≤ reads (i + k) →
      (∀ j, j < k → reads (i + j) < e) →
      (pollLoop reads e i fuel).1 = true ∧
      pollReadCount (pollLoop reads e i fuel).2 = k + 1 := by
  intro fuel
  induction fuel with
  | zero => intro i k hk; exact absurd hk (Nat.not_lt_zero k)
  | succ n ih =>
    intro i k hk hge hlt
    cases k with
    | zero =>
      have hg : e ≤ reads i := by simpa using hge
      simp [pollLoop, hg, pollReadCount]
    | succ m =>
      have h0 : reads i < e := by simpa using hlt 0 (Nat.succ_pos m)
      have hnot : ¬ e ≤ reads i := Nat.not_le.mpr h0
      have hge2 : e ≤ reads (i + 1 + m) := by
        have heq : i + (m + 1) = i + 1 + m := by omega
        rwa [heq] at hge
      have hlt2 : ∀ j, j < m → reads (i + 1 + j) < e := fun j hj => by
        have h2 := hlt (j + 1) (Nat.succ_lt_succ hj)
        have heq : i + (j + 1) = i + 1 + j := by omega
        rwa [heq] at h2
      have hrec := ih (i + 1) m (Nat.lt_of_succ_lt_succ hk) hge2 hlt2
      simp only [pollLoop, if_neg hnot, pollReadCount]
      exact ⟨hrec.1, by rw [hrec.2]⟩

theorem pollLoop_true_exists (reads : Nat → Nat) (e : Nat) :
    ∀ fuel i, (pollLoop reads e i fuel).1 = true →
      ∃ j, j < fuel ∧ e ≤ reads (i + j) := by
  intro fuel
  induction fuel with
  | zero => intro i h; simp [pollLoop] at h
  | succ n ih =>
    intro i h
    by_cases hge : e ≤ reads i
    · exact ⟨0, Nat.succ_pos n, by simpa using hge⟩
    · simp only [pollLoop, if_neg hge] at h
      obtain ⟨j, hj, hge2⟩ := ih (i + 1) h
      refine ⟨j + 1, Nat.succ_lt_succ hj, ?_⟩
      have heq : i + (j + 1) = i + 1 + j := by omega
      rwa [heq]

theorem postSwapCount_pollMap (tr : List PollEvent) :
    postSwapCount (tr.map pollEventToClient) = 0 := by
  induction tr with
  | nil => rfl
  | cons hd tl ih => cases hd <;> simp [pollEventToClient, postSwapCount, ih]

/-
Concrete environments used by the witness theorems.
-/

/-- The approve call of the test scenario: approve(spender, 100). -/
def cA : Call := ⟨"0xTokenA", "approve(0xSwapContract,100)", none⟩

/-- The swap call of the test scenario: swapAToB(100). -/
def cS : Call := ⟨"0xSwapContract", "swapAToB(100)", none⟩

def envZeroAllowance : PostEnv :=
  { privateKey := some "0xkey"
    zerodevRPC := some "https://rpc.example"
    parsedBody := .ok [cA, cS]
    setup := .ok ()
    accountAddress := "0xSmartAccount"
    encodeApprove := .ok "0xapproveCallData"
    sendApprove := .ok "0xapproveHash"
    waitApprove := .ok ()
    allowanceResult := .ok 0
    encodeSwap := .ok "0xswapCallData"
    sendSwap := .ok "0xswapHash"
    sendSingle := .ok "0xsingleHash" }

def envFullAllowance : PostEnv := { envZeroAllowance with allowanceResult := .ok 100 }

def envSingleCall : PostEnv := { envZeroAllowance with parsedBody := .ok [cA] }

def genvMissing : GetEnv :=
  { privateKey := none, zerodevRPC := some "https://rpc.example", setup := .ok "0xaddr" }

def penvMissing : PostEnv := { envZeroAllowance with privateKey := none }

/-
Claim theorems.
-/

/-- Claim C1: for a two-call POST whose approve step succeeds but whose
allowance read returns zero, the endpoint answers with the
"Allowance not updated" error at HTTP 400 and exactly one submission
occurred (call[1] is never submitted). -/
theorem post_allowanceZero_400_oneSubmission (env : PostEnv) (c0 c1 : Call)
    (d h : String)
    (hpk : missingEnvVar env.privateKey = false)
    (hrpc : missingEnvVar env.zerodevRPC = false)
    (hbody : env.parsedBody = .ok [c0, c1])
    (hsetup : env.setup = .ok ())
    (henc : env.encodeApprove = .ok d)
    (hsend : env.sendApprove = .ok h)
    (hwait : env.waitApprove = .ok ())
    (hallow : env.allowanceResult = .ok 0) :
    (POST env).1 = jsonErr "Allowance not updated" 400 ∧
    submitsOf (POST env).2 = [[mkSub c0]] := by
  simp [POST, postTwoCalls, hpk, hrpc, hbody, hsetup, henc, hsend, hwait,
    hallow, submitsOf]

theorem post_allowanceZero_400_oneSubmission_w :
    (POST envZeroAllowance).1 = jsonErr "Allowance not updated" 400 ∧
    submitsOf (POST envZeroAllowance).2 = [[mkSub cA]] :=
  post_allowanceZero_400_oneSubmission envZeroAllowance cA cS
    "0xapproveCallData" "0xapproveHash" rfl rfl rfl rfl rfl rfl rfl rfl

/-- Claim C2: for a two-call POST whose approve step succeeds and whose
allowance read is non-zero, both calls are submitted in order and the
response is the swap operation's handle at 200; only the approve
operation's receipt is awaited. -/
theorem post_allowanceNonzero_submitsBoth (env : PostEnv) (c0 c1 : Call)
    (d h ds hs : String) (n : Nat)
    (hpk : missingEnvVar env.privateKey = false)
    (hrpc : missingEnvVar env.zerodevRPC = false)
    (hbody : env.parsedBody = .ok [c0, c1])
    (hsetup : env.setup = .ok ())
    (henc : env.encodeApprove = .ok d)
    (hsend : env.sendApprove = .ok h)
    (hwait : env.waitApprove = .ok ())
    (hallow : env.allowanceResult = .ok n)
    (hn : n ≠ 0)
    (hencS : env.encodeSwap = .ok ds)
    (hsendS : env.sendSwap = .ok hs) :
    (POST env).1 = jsonOk (.userOpHash hs) ∧
    submitsOf (POST env).2 = [[mkSub c0], [mkSub c1]] ∧
    waitsOf (POST env).2 = [h] := by
  simp [POST, postTwoCalls, hpk, hrpc, hbody, hsetup, henc, hsend, hwait,
    hallow, hn, hencS, hsendS, submitsOf, waitsOf]

theorem post_allowanceNonzero_submitsBoth_w :
    (POST envFullAllowance).1 = jsonOk (.userOpHash "0xswapHash") ∧
    submitsOf (POST envFullAllowance).2 = [[mkSub cA], [mkSub cS]] ∧
    waitsOf (POST envFullAllowance).2 = ["0xapproveHash"] :=
  post_allowanceNonzero_submitsBoth envFullAllowance cA cS
    "0xapproveCallData" "0xapproveHash" "0xswapCallData" "0xswapHash" 100
    rfl rfl rfl rfl rfl rfl rfl rfl (by decide) rfl rfl

/-- Claim C3: for a POST whose calls array does not have length 2, all
calls are submitted together as one user-operation, no allowance read
happens, and the response is that operation's handle at 200. -/
theorem post_otherCount_combined (env : PostEnv) (calls : List Call) (h : String)
    (hpk : missingEnvVar env.privateKey = false)
    (hrpc : missingEnvVar env.zerodevRPC = false)
    (hbody : env.parsedBody = .ok calls)
    (hn : calls.length ≠ 2)
    (hsetup : env.setup = .ok ())
    (hsend : env.sendSingle = .ok h) :
    (POST env).1 = jsonOk (.userOpHash h) ∧
    submitsOf (POST env).2 = [calls.map mkSub] ∧
    allowanceReadsOf (POST env).2 = [] := by
  rcases calls with _ | ⟨x, _ | ⟨y, _ | ⟨z, rest⟩⟩⟩
  · simp [POST, postSingle, hpk, hrpc, hbody, hsetup, hsend, submitsOf,
      allowanceReadsOf]
  · simp [POST, postSingle, hpk, hrpc, hbody, hsetup, hsend, submitsOf,
      allowanceReadsOf]
  · exact absurd rfl hn
  · simp [POST, postSingle, hpk, hrpc, hbody, hsetup, hsend, submitsOf,
      allowanceReadsOf]

theorem post_otherCount_combined_w :
    (POST envSingleCall).1 = jsonOk (.userOpHash "0xsingleHash") ∧
    submitsOf (POST envSingleCall).2 = [[cA].map mkSub] ∧
    allowanceReadsOf (POST envSingleCall).2 = [] :=
  post_otherCount_combined envSingleCall [cA] "0xsingleHash"
    rfl rfl rfl (by decide) rfl rfl

/-- Claim C4: when the private key or the RPC URL is absent, both GET
and POST answer 500 with the "Missing env vars" error body and perform
no external work at all (empty effect trace). -/
theorem missingConfig_500_noWork (genv : GetEnv) (penv : PostEnv)
    (hg : genv.privateKey = none ∨ genv.zerodevRPC = none)
    (hp : penv.privateKey = none ∨ penv.zerodevRPC = none) :
    GET genv = (jsonErr "Missing env vars" 500, []) ∧
    POST penv = (jsonErr "Missing env vars" 500, []) := by
  constructor
  · rcases hg with h | h <;> simp [GET, missingEnvVar, h]
  · rcases hp with h | h <;> simp [POST, missingEnvVar, h]

theorem missingConfig_500_noWork_w :
    GET genvMissing = (jsonErr "Missing env vars" 500, []) ∧
    POST penvMissing = (jsonErr "Missing env vars" 500, []) :=
  missingConfig_500_noWork genvMissing penvMissing (Or.inl rfl) (Or.inl rfl)

def envApproveFail : PostEnv :=
  { envZeroAllowance with sendApprove := .error "bundler rejected" }

/-- Claim C7: in the two-call path, failure of call[0]'s submission or
of its receipt wait yields a 500 whose message is "Approve failed: "
followed by the underlying error, and call[1] is never submitted: the
approve submission is the only one in the trace, with no retry. -/
theorem post_approveFailure_aborts (env : PostEnv) (c0 c1 : Call)
    (d e : String)
    (hpk : missingEnvVar env.privateKey = false)
    (hrpc : missingEnvVar env.zerodevRPC = false)
    (hbody : env.parsedBody = .ok [c0, c1])
    (hsetup : env.setup = .ok ())
    (henc : env.encodeApprove = .ok d)
    (hfail : env.sendApprove = .error e ∨
      (∃ h, env.sendApprove = .ok h ∧ env.waitApprove = .error e)) :
    (POST env).1 = jsonErr ("Approve failed: " ++ e) 500 ∧
    submitsOf (POST env).2 = [[mkSub c0]] := by
  rcases hfail with hsend | ⟨h, hsend, hwait⟩
  · simp [POST, postTwoCalls, hpk, hrpc, hbody, hsetup, henc, hsend, submitsOf]
  · simp [POST, postTwoCalls, hpk, hrpc, hbody, hsetup, henc, hsend, hwait,
      submitsOf]

theorem post_approveFailure_aborts_w :
    (POST envApproveFail).1 = jsonErr ("Approve failed: " ++ "bundler rejected") 500 ∧
    submitsOf (POST envApproveFail).2 = [[mkSub cA]] :=
  post_approveFailure_aborts envApproveFail cA cS "0xapproveCallData"
    "bundler rejected" rfl rfl rfl rfl rfl (Or.inl rfl)

theorem wellFormedPost_postTwoCalls (env : PostEnv) (c0 c1 : Call) :
    wellFormedPost (postTwoCalls env c0 c1).1 = true := by
  unfold postTwoCalls
  repeat' split
  all_goals rfl

theorem wellFormedPost_postSingle (env : PostEnv) (calls : List Call) :
    wellFormedPost (postSingle env calls).1 = true := by
  unfold postSingle
  split
  all_goals rfl

/-- Claim C8: every GET outcome is a 200 address payload or a 500 error
payload, and every POST outcome is a 200 userOpHash payload or an error
payload at status 400 or 500; no other response shape is reachable, so
no exception escapes either handler unconverted. -/
theorem endpoint_outcomes_structured (genv : GetEnv) (penv : PostEnv) :
    wellFormedGet (GET genv).1 = true ∧ wellFormedPost (POST penv).1 = true := by
  refine ⟨?_, ?_⟩
  · unfold GET
    repeat' split
    all_goals rfl
  · unfold POST
    repeat' split
    all_goals first
      | rfl
      | exact wellFormedPost_postTwoCalls penv _ _
      | exact wellFormedPost_postSingle penv _

/-- Claim C9: in the two-call path with a successful approve submission
and confirmation, the endpoint's effects are, in order: account setup,
submit call[0], wait for its receipt, delay 30000 ms, then read
allowance(token = call[0].to, owner = the smart-account address,
spender = call[1].to). -/
theorem post_approveSequence_order (env : PostEnv) (c0 c1 : Call)
    (d h : String)
    (hpk : missingEnvVar env.privateKey = false)
    (hrpc : missingEnvVar env.zerodevRPC = false)
    (hbody : env.parsedBody = .ok [c0, c1])
    (hsetup : env.setup = .ok ())
    (henc : env.encodeApprove = .ok d)
    (hsend : env.sendApprove = .ok h)
    (hwait : env.waitApprove = .ok ()) :
    (POST env).2.take 5 =
      [.accountSetup, .submit [mkSub c0], .waitReceipt h, .delay 30000,
       .readAllowance c0.toAddr env.accountAddress c1.toAddr] := by
  rcases hA : env.allowanceResult with e | n
  · simp [POST, postTwoCalls, hpk, hrpc, hbody, hsetup, henc, hsend, hwait, hA]
  · by_cases hn : n = 0
    · simp [POST, postTwoCalls, hpk, hrpc, hbody, hsetup, henc, hsend, hwait,
        hA, hn]
    · rcases hE : env.encodeSwap with e2 | ds
      · simp [POST, postTwoCalls, hpk, hrpc, hbody, hsetup, henc, hsend, hwait,
          hA, hn, hE]
      · rcases hS : env.sendSwap with e3 | hs <;>
          simp [POST, postTwoCalls, hpk, hrpc, hbody, hsetup, henc, hsend,
            hwait, hA, hn, hE, hS]

theorem post_approveSequence_order_w :
    (POST envZeroAllowance).2.take 5 =
      [.accountSetup, .submit [mkSub cA], .waitReceipt "0xapproveHash",
       .delay 30000,
       .readAllowance cA.toAddr envZeroAllowance.accountAddress cS.toAddr] :=
  post_approveSequence_order envZeroAllowance cA cS "0xapproveCallData"
    "0xapproveHash" rfl rfl rfl rfl rfl rfl rfl

theorem submitValuesZero_postTwoCalls (env : PostEnv) (c0 c1 : Call) :
    submitValuesZero (postTwoCalls env c0 c1).2 = true := by
  unfold postTwoCalls
  repeat' split
  all_goals simp [submitValuesZero, submitsOf, mkSub]

theorem submitValuesZero_postSingle (env : PostEnv) (calls : List Call) :
    submitValuesZero (postSingle env calls).2 = true := by
  unfold postSingle
  split <;>
    simp [submitValuesZero, submitsOf, mkSub, List.all_map, Function.comp]

/-- Claim C10: every call in every submission the POST handler performs
carries native value exactly 0, whatever value fields the request body
supplied: all three submission sites fill value with BigInt(0). -/
theorem post_submitted_values_zero (env : PostEnv) :
    submitValuesZero (POST env).2 = true := by
  unfold POST
  repeat' split
  all_goals first
    | rfl
    | exact submitValuesZero_postTwoCalls env _ _
    | exact submitValuesZero_postSingle env _

def cenvTimeout : ClientEnv :=
  { fromAmount := "100"
    accountAddress := some "0xSmartAccount"
    fromTokenAddress := "0xTokenA"
    approveData := "approve(0x718421BB9a6Bb63D4A63295d59c12196c3e221Ed,100)"
    swapData := "swapAToB(100)"
    amount := 100
    approveResult := .ok (jsonOk (.userOpHash "0xapproveHash"))
    reads := fun _ => 0
    swapResult := .ok (jsonOk (.userOpHash "0xswapHash")) }

/-- Claim C6: the client's poll performs at most 20 allowance reads,
every sleep between reads is 2000 ms, it succeeds exactly at the first
attempt whose observed allowance reaches the requested amount, and if
all 20 attempts read below the amount the poll fails and a handleSwap
run that reached the poll ends in the error state with zero swap POSTs. -/
theorem pollForAllowance_bounded_timeout (reads : Nat → Nat) (amt : Nat)
    (cenv : ClientEnv) :
    pollReadCount (pollForAllowance reads amt 20).2 ≤ 20 ∧
    pollSleepsAll2000 (pollForAllowance reads amt 20).2 = true ∧
    (∀ k, k < 20 → amt ≤ reads k → (∀ j, j < k → reads j < amt) →
      (pollForAllowance reads amt 20).1 = true ∧
      pollReadCount (pollForAllowance reads amt 20).2 = k + 1) ∧
    ((∀ i, i < 20 → reads i < amt) →
      (pollForAllowance reads amt 20).1 = false ∧
      pollReadCount (pollForAllowance reads amt 20).2 = 20) ∧
    (∀ r, cenv.fromAmount ≠ "" → cenv.accountAddress.isSome = true →
      cenv.approveResult = .ok r → respOk r = true →
      (∀ i, i < 20 → cenv.reads i < cenv.amount) →
      (handleSwap cenv).1 = some SwapStatus.error ∧
      postSwapCount (handleSwap cenv).2 = 0) := by
  refine ⟨pollLoop_readCount_le reads amt 20 0,
    pollLoop_sleeps reads amt 20 0, ?_, ?_, ?_⟩
  · intro k hk hge hlt
    exact pollLoop_first_success reads amt 20 0 k hk (by simpa using hge)
      (fun j hj => by simpa using hlt j hj)
  · intro hall
    exact pollLoop_all_below reads amt 20 0 (fun j hj => by simpa using hall j hj)
  · intro r hne hsome hok hrok hall
    have hpoll := pollLoop_all_below cenv.reads cenv.amount 20 0
      (fun j hj => by simpa using hall j hj)
    have hfalse : (pollForAllowance cenv.reads cenv.amount 20).1 = false :=
      hpoll.1
    have hbeq : (cenv.fromAmount == "") = false := by
      simp [hne]
    have hnone : cenv.accountAddress.isNone = false := by
      cases h : cenv.accountAddress with
      | none => rw [h] at hsome; simp at hsome
      | some a => rfl
    constructor
    · simp [handleSwap, hbeq, hnone, hok, hrok, hfalse]
    · simp [handleSwap, hbeq, hnone, hok, hrok, hfalse, postSwapCount,
        clientPollTrace, postSwapCount_pollMap]

theorem pollForAllowance_bounded_timeout_w :
    pollReadCount (pollForAllowance (fun _ => 0) 100 20).2 ≤ 20 ∧
    (handleSwap cenvTimeout).1 = some SwapStatus.error ∧
    postSwapCount (handleSwap cenvTimeout).2 = 0 := by
  have h := pollForAllowance_bounded_timeout (fun _ => 0) 100 cenvTimeout
  have h5 := h.2.2.2.2 (jsonOk (.userOpHash "0xapproveHash"))
    (by decide) (by decide) rfl (by decide) (fun i _ => Nat.succ_pos 99)
  exact ⟨h.1, h5.1, h5.2⟩

/-- The environment of the C5 counterexample: the approve of the test
scenario was meant to grant 100, but the allowance read returns 1. -/
def envLowAllowance : PostEnv :=
  { envZeroAllowance with allowanceResult := .ok 1 }

/-- Claim C5 counterexample: with call[0] an approval for amount 100,
the endpoint observes an allowance of only 1 — strictly below the
intended transfer amount — yet still submits call[1] (two submissions
occur), contradicting the claimed invariant. -/
theorem swap_invariant_counterexample :
    envLowAllowance.allowanceResult = Except.ok 1 ∧
    submitsOf (POST envLowAllowance).2 = [[mkSub cA], [mkSub cS]] ∧
    ¬ (100 ≤ 1) :=
  ⟨rfl, rfl, by decide⟩

theorem postTwoCalls_two_submits (env : PostEnv) (c0 c1 : Call)
    (hlen : (submitsOf (postTwoCalls env c0 c1).2).length = 2) :
    ∃ a, env.allowanceResult = .ok a ∧ 1 ≤ a := by
  revert hlen
  unfold postTwoCalls
  rcases env.encodeApprove with e | d
  · intro h; simp [submitsOf] at h
  · rcases env.sendApprove with e | hsh
    · intro h; simp [submitsOf] at h
    · rcases env.waitApprove with e | u
      · intro h; simp [submitsOf] at h
      · rcases hA : env.allowanceResult with e | n
        · intro h; simp [submitsOf] at h
        · by_cases hn : n = 0
          · subst hn; intro h; simp [submitsOf] at h
          · intro _
            exact ⟨n, rfl, Nat.one_le_iff_ne_zero.mpr hn⟩

theorem handleSwap_postSwap_poll (cenv : ClientEnv)
    (h : 0 < postSwapCount (handleSwap cenv).2) :
    ∃ i, i < 20 ∧ cenv.amount ≤ cenv.reads i := by
  have hkey : (pollForAllowance cenv.reads cenv.amount 20).1 = true →
      ∃ i, i < 20 ∧ cenv.amount ≤ cenv.reads i := by
    intro htrue
    obtain ⟨j, hj, hge⟩ := pollLoop_true_exists cenv.reads cenv.amount 20 0 htrue
    exact ⟨j, hj, by simpa using hge⟩
  revert h
  unfold handleSwap
  split
  · intro h; simp [postSwapCount] at h
  · split
    · intro h; simp [postSwapCount] at h
    · split
      · intro h; simp [postSwapCount] at h
      · split
        · intro h
          simp [postSwapCount, clientPollTrace, postSwapCount_pollMap] at h
        · rename_i hcond
          intro _
          apply hkey
          simpa using hcond

/-- Claim C5 amended: the endpoint's two-call path submits call[1] only
after observing a nonzero allowance (at least 1, not necessarily the
intended amount), and the client posts the swap only after some poll
attempt observed an allowance ≥ the intended amount. -/
theorem swap_invariant_amended (env : PostEnv) (c0 c1 : Call)
    (cenv : ClientEnv)
    (hbody : env.parsedBody = .ok [c0, c1]) :
    ((submitsOf (POST env).2).length = 2 →
      ∃ a, env.allowanceResult = .ok a ∧ 1 ≤ a) ∧
    (0 < postSwapCount (handleSwap cenv).2 →
      ∃ i, i < 20 ∧ cenv.amount ≤ cenv.reads i) := by
  constructor
  · intro hlen
    by_cases hmiss :
        (missingEnvVar env.privateKey || missingEnvVar env.zerodevRPC) = true
    · simp [POST, hmiss, submitsOf] at hlen
    · rcases hS : env.setup with e | u
      · simp [POST, eq_false_of_ne_true hmiss, hbody, hS, submitsOf] at hlen
      · refine postTwoCalls_two_submits env c0 c1 ?_
        simpa [POST, eq_false_of_ne_true hmiss, hbody, hS] using hlen
  · exact handleSwap_postSwap_poll cenv

theorem swap_invariant_amended_w :
    ((submitsOf (POST envLowAllowance).2).length = 2 →
      ∃ a, envLowAllowance.allowanceResult = .ok a ∧ 1 ≤ a) ∧
    (0 < postSwapCount (handleSwap cenvTimeout).2 →
      ∃ i, i < 20 ∧ cenvTimeout.amount ≤ cenvTimeout.reads i) :=
  swap_invariant_amended envLowAllowance cA cS cenvTimeout rfl

end SmartAccount
